import Mathlib

/-!
Verification of the environment-synchronization pipeline implemented in
`src/src/caramba.cpp` (an Rcpp binding over the mamba library).  The file
shallowly embeds the functions of that source file — `install`,
`install_specs`, `list`, `print_context`, `set_network_options` — as pure
Lean functions, and proves or refutes the specification claims about them.

Library functions of mamba that are not part of the source file
(`calculate_channel_urls`, `MSolver::add_jobs`, `MTransaction::prompt`,
`MTransaction::execute`, the default libsolv repository priority) are
modelled from the specification; every such definition carries a doc
comment starting with `Modelled from the spec:`.
-/

namespace Caramba

/-- Rendering of a C++ `bool` by `operator<<` on a stream: `1` or `0`. -/
def showBool (b : Bool) : String := if b then "1" else "0"

/-- The process-wide mutable configuration singleton `mamba::Context::instance()`.
The fields are the ones read by the source file.  `root` models
`ctx.root_prefix` and `target` models `ctx.target_prefix` (the field names
are shortened, the paths are kept as plain strings). -/
structure Context where
  channels : List String
  root : String
  target : String
  use_index_cache : Bool
  offline : Bool
  verbosity : Int
  quiet : Bool
  json : Bool
  auto_activate_base : Bool
  dev : Bool
  on_ci : Bool
  no_progress_bars : Bool
  dry_run : Bool
  always_yes : Bool
  keep_temp_files : Bool
  keep_temp_directories : Bool
  change_ps1 : Bool
  add_pip_as_python_dependency : Bool
deriving DecidableEq, Repr

/-- Embedding of `print_context` (caramba.cpp lines 202–225): the sequence of
printed lines, each as a pair of the label before `": "` and the rendered
value after it.  Note line 220 of the source: the line labeled
`Always yes` renders `Context::instance().quiet`. -/
def print_context (ctx : Context) : List (String × String) :=
  (ctx.channels.map (fun c => ("Channel", c))) ++
  [("Root prefix", ctx.root),
   ("Target prefix", ctx.target),
   ("Use index cache", showBool ctx.use_index_cache),
   ("Is offline", showBool ctx.offline),
   ("Verbosity level", toString ctx.verbosity),
   ("Is quiet", showBool ctx.quiet),
   ("Is json", showBool ctx.json),
   ("Auto activate base", showBool ctx.auto_activate_base),
   ("Is dev", showBool ctx.dev),
   ("Is on CI", showBool ctx.on_ci),
   ("Is no no progress bars", showBool ctx.no_progress_bars),
   ("Is dry run", showBool ctx.dry_run),
   ("Always yes", showBool ctx.quiet),
   ("Keep temporary files", showBool ctx.keep_temp_files),
   ("Keep temporary directories", showBool ctx.keep_temp_directories),
   ("Change PS1", showBool ctx.change_ps1),
   ("Add pip as python dependency", showBool ctx.add_pip_as_python_dependency)]

/-- The `network_options` static struct of caramba.cpp (lines 95–98). -/
structure NetworkOptions where
  ssl_verify : Bool
  cacert_path : String
deriving DecidableEq, Repr

/-- The fixed `cert_locations` array of `set_network_options`
(caramba.cpp lines 239–246), in source order. -/
def cert_locations : List String :=
  ["/etc/ssl/certs/ca-certificates.crt",
   "/etc/pki/tls/certs/ca-bundle.crt",
   "/etc/ssl/ca-bundle.pem",
   "/etc/pki/tls/cacert.pem",
   "/etc/pki/ca-trust/extracted/pem/tls-ca-bundle.pem",
   "/etc/ssl/cert.pem"]

/-- Embedding of `set_network_options` (caramba.cpp lines 237–274), returning
the final value of `ctx.ssl_verify`.  `fsExists` models `fs::exists` and
`ssl0` is the value of `ctx.ssl_verify` on entry (it is only read by the
emptiness test after the loop). -/
def set_network_options (opts : NetworkOptions) (fsExists : String → Bool)
    (ssl0 : String) : String :=
  if opts.ssl_verify = false then "<false>"
  else if opts.cacert_path ≠ "" then opts.cacert_path
  else
    let v := cert_locations.foldl (fun acc loc => if fsExists loc then loc else acc) ssl0
    if v = "" then "<false>" else v

/-- Error taxonomy of the spec (section 7). -/
inductive CarambaError where
  | configurationError
  | networkError
  | unsatisfiableError
  | transactionError
deriving DecidableEq, Repr

/-- First-seen de-duplication of a list of channel names: keeps the first
occurrence of every name, in input order.  `seen` accumulates the names
already emitted. -/
def firstSeenDedupAux (seen : List String) : List String → List String
  | [] => []
  | c :: rest =>
      if c ∈ seen then firstSeenDedupAux seen rest
      else c :: firstSeenDedupAux (c :: seen) rest

/-- First-seen de-duplication with no names seen yet. -/
def firstSeenDedup (l : List String) : List String := firstSeenDedupAux [] l

/-- Modelled from the spec: `calculate_channel_urls` (mamba library, not in
src/).  Section 4.1: expands the configured channels, most-preferred first,
into one `(channel, platform)` entry and one `(channel, noarch)` entry per
channel, de-duplicating channels while preserving first-seen order; when the
channel set is empty the configured default channels are used instead, and
if there is no default either, it fails with `ConfigurationError`.  No
network access occurs in this component. -/
def calculate_channel_urls (defaults : List String) (platform : String)
    (channels : List String) : Except CarambaError (List (String × String)) :=
  let cs := if channels.isEmpty then defaults else channels
  if cs.isEmpty then .error .configurationError
  else .ok ((firstSeenDedup cs).flatMap (fun c => [(c, platform), (c, "noarch")]))

/-- The set of channels held by `Context::instance().channels` after the
preprocessing in `install` (caramba.cpp lines 430–435): the configured
channels are poured into a `std::unordered_set`, `"default"` and
`"conda-forge"` are inserted unconditionally, and the set is assigned back
to the channel list. -/
def install_channels_set (channels : List String) : Finset String :=
  channels.toFinset ∪ {"default", "conda-forge"}

/-- Admissible observable results of iterating a C++ `std::unordered_set`
holding the set `s`: any duplicate-free list whose elements are exactly `s`.
The iteration order of `std::unordered_set` is unspecified, so the embedding
quantifies over it. -/
def IsSetEnum (s : Finset String) (l : List String) : Prop :=
  l.Nodup ∧ l.toFinset = s

/-- Observable steps of an `install_specs` run, in program order.
`createCacheDir` is the successful `fs::create_directories` of
`root_prefix/pkgs/cache` (line 307); `createEnvDirs` is the creation of the
target-environment directories (lines 372–374); `execute` is the call
`trans.execute(...)` (line 377), tagged with the dry-run flag because the
executor short-circuits on it (spec section 4.6). -/
inductive Event where
  | banner
  | createCacheDir
  | loadSubdir (url : String)
  | download
  | loadInstalled
  | solve
  | logJson
  | prompt
  | createEnvDirs
  | execute (dryRun : Bool)
deriving DecidableEq, Repr

/-- Outcome of an `install_specs` run: a call to `exit(code)`, an error
propagated out of the pipeline, or normal completion. -/
inductive RunResult where
  | exited (code : Nat)
  | failed (e : CarambaError)
  | completed
deriving DecidableEq, Repr

/-- An `install_specs` run: the observable steps, in order, and the outcome. -/
structure Run where
  events : List Event
  result : RunResult
deriving DecidableEq, Repr

/-- The parts of the outside world `install_specs` consults: whether the
target prefix exists on disk, whether creating `pkgs/cache` succeeds, and
the user's answer to the confirmation prompt. -/
structure Env where
  targetExists : Bool
  cacheDirOk : Bool
  promptAnswer : Bool
deriving DecidableEq, Repr

/-- Tail of an `install_specs` run after the confirmation succeeded
(caramba.cpp lines 370–377): the target-environment directories are created
only when `create_env` holds and dry-run is off, then `trans.execute` runs
unconditionally. -/
def finishRun (ctx : Context) (ev : List Event) (create_env : Bool) : Run :=
  let ev := if create_env ∧ ctx.dry_run = false then ev ++ [Event.createEnvDirs] else ev
  ⟨ev ++ [Event.execute ctx.dry_run], .completed⟩

/-- Embedding of `install_specs` (caramba.cpp lines 276–378) as the run it
produces.  The guards, in source order: empty root prefix, empty target
prefix, missing target without `create_env`, and `pkgs/cache` creation
failure each call `exit(1)`.  Channel URLs then come from
`calculate_channel_urls`; a thrown `ConfigurationError` propagates with no
further step.  Each URL is loaded as a subdirectory, the downloads run, the
installed ledger is loaded, the solver runs, the transaction is logged when
JSON mode is on, and the prompt is shown.  Modelled from the spec (section
4.6): `trans.prompt` returns true without presenting the prompt when
always-yes is configured; declining calls `exit(0)`. -/
def install_specs (ctx : Context) (env : Env) (defaults : List String)
    (platform : String) (create_env : Bool) : Run :=
  let ev0 := [Event.banner]
  if ctx.root = "" then ⟨ev0, .exited 1⟩
  else if ctx.target = "" then ⟨ev0, .exited 1⟩
  else if env.targetExists = false ∧ create_env = false then ⟨ev0, .exited 1⟩
  else if env.cacheDirOk = false then ⟨ev0, .exited 1⟩
  else
    let ev1 := ev0 ++ [Event.createCacheDir]
    match calculate_channel_urls defaults platform ctx.channels with
    | .error e => ⟨ev1, .failed e⟩
    | .ok urls =>
      let ev2 := ev1 ++ urls.map (fun u => Event.loadSubdir (u.1 ++ "/" ++ u.2)) ++
        [Event.download, Event.loadInstalled, Event.solve]
      let ev3 := if ctx.json then ev2 ++ [Event.logJson] else ev2
      if ctx.always_yes then finishRun ctx ev3 create_env
      else
        let ev4 := ev3 ++ [Event.prompt]
        if env.promptAnswer = false then ⟨ev4, .exited 0⟩
        else finishRun ctx ev4 create_env

/-- Whether a pipeline step mutates the target environment.  Creating the
environment directories does; `createCacheDir` acts under the root prefix,
not the target environment.  Modelled from the spec (section 4.6) for the
executor: under dry-run, `trans.execute` short-circuits to reporting and
performs no mutation, otherwise it applies the plan. -/
def mutatesTargetEnv : Event → Bool
  | .createEnvDirs => true
  | .execute dryRun => !dryRun
  | _ => false

/-- A repository handle in the candidate pool.  `source` is `none` for the
installed-environment repository built from `PrefixData` and `some url` for
a remote subdirectory. -/
structure MRepo where
  source : Option String
  priority : Int
  subpriority : Int
deriving DecidableEq, Repr

/-- Modelled from the spec: the installed-environment repository
(`MRepo(pool, prefix_data)`, mamba library, not in src/).  The source never
calls `set_priority` on it, leaving the libsolv default priority `0` — the
lowest value, reserved for the already-installed baseline (spec section
4.4). -/
def installedRepo : MRepo := ⟨none, 0, 0⟩

/-- The loop of caramba.cpp lines 345–350: each subdirectory becomes a repo
with priority `prio_counter--` and subpriority `0`. -/
def remote_repos (prio_counter : Int) : List String → List MRepo
  | [] => []
  | url :: rest => ⟨some url, prio_counter, 0⟩ :: remote_repos (prio_counter - 1) rest

/-- The candidate-pool repositories built by `install_specs`
(caramba.cpp lines 337–350): the installed-environment repository first,
then one repo per subdirectory URL with `prio_counter` starting at
`subdirs.size()`. -/
def build_repos (urls : List String) : List MRepo :=
  installedRepo :: remote_repos urls.length urls

/-- Solver job intents (libsolv job action constants used through mamba). -/
inductive JobIntent where
  | SOLVER_INSTALL
  | SOLVER_ERASE
  | SOLVER_UPDATE
deriving DecidableEq, Repr

/-- Solver configuration flags (libsolv flag constants used through mamba). -/
inductive SolverFlagKind where
  | SOLVER_FLAG_ALLOW_DOWNGRADE
  | SOLVER_FLAG_ALLOW_UNINSTALL
deriving DecidableEq, Repr

/-- The solver state: the flag assignment given at construction and the job
list accumulated by `add_jobs`. -/
structure MSolver where
  flags : List (SolverFlagKind × Nat)
  jobs : List (String × JobIntent)
deriving DecidableEq, Repr

/-- Modelled from the spec: `MSolver::add_jobs` (mamba library, not in
src/).  Section 4.5: one solver job is emitted per user-supplied spec
string, tagged with the given intent. -/
def MSolver.add_jobs (s : MSolver) (specs : List String) (intent : JobIntent) : MSolver :=
  { s with jobs := s.jobs ++ specs.map (fun sp => (sp, intent)) }

/-- The solver built by `install_specs` (caramba.cpp lines 352–353):
constructed with `SOLVER_FLAG_ALLOW_DOWNGRADE` set to `1`, then `add_jobs`
with the user specs and `SOLVER_INSTALL`. -/
def install_specs_solver (specs : List String) : MSolver :=
  MSolver.add_jobs ⟨[(SolverFlagKind.SOLVER_FLAG_ALLOW_DOWNGRADE, 1)], []⟩
    specs JobIntent.SOLVER_INSTALL

/-- A package record of the installed ledger as read by `list`
(`prefix_data.m_package_records` values). -/
structure PackageRecord where
  name : String
  version : String
  build_string : String
  channel : String
  url : String
deriving DecidableEq, Repr

/-- The `formatted_pkg` row struct of caramba.cpp lines 100–103. -/
structure formatted_pkg where
  name : String
  version : String
  build : String
  channel : String
deriving DecidableEq, Repr

/-- The comparator of caramba.cpp lines 105–108. -/
def compareAlphabetically (a b : formatted_pkg) : Bool := decide (a.name < b.name)

/-- The default public channel URL tested by `list` (caramba.cpp line 399),
as a character list so that the check computes by kernel reduction. -/
def anaconda_default_chars : List Char := "https://repo.anaconda.com/pkgs/".data

/-- The test `package.second.channel.find("https://repo.anaconda.com/pkgs/") == 0`
of caramba.cpp line 399: the channel URL starts with the designated default
public channel URL. -/
def is_default_channel (channel : String) : Bool :=
  List.isPrefixOf anaconda_default_chars channel.data

/-- The row built for one package record by the loop of caramba.cpp lines
394–409.  `resolveName` models `make_channel(url).name()` (mamba library,
not in src/), kept as a parameter of the embedding. -/
def format_one (resolveName : String → String) (p : PackageRecord) : formatted_pkg :=
  { name := p.name
    version := p.version
    build := p.build_string
    channel := if is_default_channel p.channel then "" else resolveName p.url }

/-- Embedding of the `list` operation (caramba.cpp lines 381–427): one row
per installed package record, sorted with `compareAlphabetically`
(`std::sort`; the embedding uses merge sort, whose observables — a sorted
permutation of the rows — are the ones `std::sort` guarantees). -/
def list_packages (resolveName : String → String) (records : List PackageRecord) :
    List formatted_pkg :=
  (records.map (format_one resolveName)).mergeSort
    (fun a b => decide (a.name ≤ b.name))

/-- A concrete configuration used by the closed witness statements. -/
def ctx0 : Context :=
  { channels := ["conda-forge"]
    root := "/opt/mamba"
    target := "/opt/mamba/envs/e1"
    use_index_cache := false
    offline := false
    verbosity := 0
    quiet := false
    json := false
    auto_activate_base := false
    dev := false
    on_ci := false
    no_progress_bars := false
    dry_run := false
    always_yes := false
    keep_temp_files := false
    keep_temp_directories := false
    change_ps1 := true
    add_pip_as_python_dependency := true }

/-- A concrete healthy environment used by the closed witness statements. -/
def env0 : Env := ⟨true, true, true⟩

/-- The steps an `install_specs` run has taken when it reaches the
confirmation stage: banner, cache-dir creation, one subdirectory load per
URL, download, ledger load, solve, and the JSON log when JSON mode is on. -/
def preEvents (ctx : Context) (urls : List (String × String)) : List Event :=
  [Event.banner, Event.createCacheDir] ++
    urls.map (fun u => Event.loadSubdir (u.1 ++ "/" ++ u.2)) ++
    [Event.download, Event.loadInstalled, Event.solve] ++
    (if ctx.json then [Event.logJson] else [])

theorem mem_firstSeenDedupAux (seen l : List String) (c : String) :
    c ∈ firstSeenDedupAux seen l ↔ c ∈ l ∧ c ∉ seen := by
  induction l generalizing seen with
  | nil => simp [firstSeenDedupAux]
  | cons x xs ih =>
      by_cases hx : x ∈ seen
      · simp only [firstSeenDedupAux, if_pos hx, ih, List.mem_cons]
        constructor
        · rintro ⟨h1, h2⟩
          exact ⟨Or.inr h1, h2⟩
        · rintro ⟨h1 | h1, h2⟩
          · exact absurd (h1 ▸ hx) h2
          · exact ⟨h1, h2⟩
      · simp only [firstSeenDedupAux, if_neg hx, List.mem_cons, ih]
        by_cases hcx : c = x
        · subst hcx
          simp [hx]
        · simp [hcx]

theorem nodup_firstSeenDedupAux (seen l : List String) :
    (firstSeenDedupAux seen l).Nodup := by
  induction l generalizing seen with
  | nil => simp [firstSeenDedupAux]
  | cons x xs ih =>
      by_cases hx : x ∈ seen
      · simpa [firstSeenDedupAux, hx] using ih seen
      · simp only [firstSeenDedupAux, if_neg hx, List.nodup_cons]
        exact ⟨fun h => by simp [mem_firstSeenDedupAux] at h, ih (x :: seen)⟩

theorem mem_urlPairs (l : List String) (pf : String) (p : String × String) :
    p ∈ l.flatMap (fun c => [(c, pf), (c, "noarch")]) ↔
      p.1 ∈ l ∧ (p.2 = pf ∨ p.2 = "noarch") := by
  rcases p with ⟨c, s⟩
  simp only [List.mem_flatMap, List.mem_cons, List.not_mem_nil, or_false,
    Prod.mk.injEq]
  constructor
  · rintro ⟨a, ha, (⟨rfl, rfl⟩ | ⟨rfl, rfl⟩)⟩
    · exact ⟨ha, Or.inl rfl⟩
    · exact ⟨ha, Or.inr rfl⟩
  · rintro ⟨hc, (rfl | rfl)⟩
    · exact ⟨c, hc, Or.inl ⟨rfl, rfl⟩⟩
    · exact ⟨c, hc, Or.inr ⟨rfl, rfl⟩⟩

theorem nodup_urlPairs (l : List String) (pf : String) (h : l.Nodup)
    (hp : pf ≠ "noarch") :
    (l.flatMap (fun c => [(c, pf), (c, "noarch")])).Nodup := by
  induction l with
  | nil => simp
  | cons x xs ih =>
      rcases List.nodup_cons.mp h with ⟨hx, hxs⟩
      rw [List.flatMap_cons]
      refine List.Nodup.append ?_ (ih hxs) ?_
      · simp [List.nodup_cons, Prod.ext_iff, hp]
      · intro p hpl hpr
        rcases (mem_urlPairs xs pf p).mp hpr with ⟨hmem, _⟩
        simp only [List.mem_cons, List.not_mem_nil, or_false] at hpl
        rcases hpl with rfl | rfl <;> exact hx hmem

theorem foldl_cert_pick_last (fsExists : String → Bool) (l : List String)
    (a : String) :
    l.foldl (fun acc loc => if fsExists loc then loc else acc) a =
      (l.filter fsExists).getLastD a := by
  induction l generalizing a with
  | nil => rfl
  | cons x xs ih =>
      simp only [List.foldl_cons]
      by_cases hx : fsExists x
      · rw [if_pos hx, ih x, List.filter_cons_of_pos hx, List.getLastD_cons]
      · rw [if_neg hx, ih a, List.filter_cons_of_neg hx]

theorem set_network_options_auto_shape (opts : NetworkOptions)
    (fsExists : String → Bool) (hv : opts.ssl_verify = true)
    (hc : opts.cacert_path = "") :
    set_network_options opts fsExists "" =
      (if (cert_locations.filter fsExists).getLastD "" = "" then "<false>"
       else (cert_locations.filter fsExists).getLastD "") := by
  unfold set_network_options
  rw [hv, hc, if_neg (by simp), if_neg (by simp),
    foldl_cert_pick_last fsExists cert_locations ""]

/-- Claim C9: in `print_context`, the line labeled "Always yes" prints the
value of the quiet flag, not the always_yes flag: for any context state
where quiet and always_yes differ, the single line carrying that label
shows the rendered quiet value and not the rendered always_yes value. -/
theorem print_context_always_yes_shows_quiet (ctx : Context)
    (h : ctx.quiet ≠ ctx.always_yes) :
    ("Always yes", showBool ctx.quiet) ∈ print_context ctx ∧
    ∀ v, ("Always yes", v) ∈ print_context ctx →
      v = showBool ctx.quiet ∧ v ≠ showBool ctx.always_yes := by
  have hne : showBool ctx.quiet ≠ showBool ctx.always_yes := by
    cases hq : ctx.quiet <;> cases ha : ctx.always_yes <;>
      simp_all [showBool]
  refine ⟨by simp [print_context], ?_⟩
  intro v hv
  rcases List.mem_append.mp hv with hch | hfix
  · rcases List.mem_map.mp hch with ⟨c, _, hc⟩
    have : "Channel" = "Always yes" := congrArg Prod.fst hc
    simp at this
  · have hv' : v = showBool ctx.quiet := by
      simp only [List.mem_cons, List.not_mem_nil, or_false, Prod.mk.injEq] at hfix
      rcases hfix with h' | h' | h' | h' | h' | h' | h' | h' | h' | h' | h' | h' |
        h' | h' | h' | h' | h' <;> first
        | (exact h'.2)
        | (exact absurd h'.1 (by simp))
    exact ⟨hv', hv' ▸ hne⟩

/-- Closed witness for C9 at a concrete context with quiet true and
always_yes false. -/
theorem print_context_always_yes_shows_quiet_witness :
    ("Always yes", showBool { ctx0 with quiet := true }.quiet) ∈
        print_context { ctx0 with quiet := true } ∧
    ∀ v, ("Always yes", v) ∈ print_context { ctx0 with quiet := true } →
      v = showBool { ctx0 with quiet := true }.quiet ∧
      v ≠ showBool { ctx0 with quiet := true }.always_yes :=
  print_context_always_yes_shows_quiet { ctx0 with quiet := true } (by decide)

/-- Claim C10: when SSL verification is enabled and no explicit CA path is
given, `set_network_options` scans the six well-known locations: if none
exists the result is the disabled marker "<false>", and if some exist the
selected certificate is the last existing path in the fixed list. -/
theorem set_network_options_ca_detection (opts : NetworkOptions)
    (fsExists : String → Bool) (ssl0 : String)
    (hv : opts.ssl_verify = true) (hc : opts.cacert_path = "")
    (h0 : ssl0 = "") :
    (cert_locations.filter fsExists = [] →
      set_network_options opts fsExists ssl0 = "<false>") ∧
    (∀ lastLoc, (cert_locations.filter fsExists).getLast? = some lastLoc →
      set_network_options opts fsExists ssl0 = lastLoc) := by
  subst h0
  have hshape := set_network_options_auto_shape opts fsExists hv hc
  constructor
  · intro hnone
    rw [hshape, hnone]
    rfl
  · intro lastLoc hlast
    have hmem : lastLoc ∈ cert_locations := by
      have : lastLoc ∈ cert_locations.filter fsExists :=
        List.mem_of_getLast?_eq_some hlast
      exact List.mem_of_mem_filter this
    have hne : lastLoc ≠ "" := by
      simp only [cert_locations, List.mem_cons, List.not_mem_nil, or_false] at hmem
      rcases hmem with rfl | rfl | rfl | rfl | rfl | rfl <;> simp
    have hd : (cert_locations.filter fsExists).getLastD "" = lastLoc := by
      rw [List.getLastD_eq_getLast?, hlast]
      rfl
    rw [hshape, hd, if_neg hne]

/-- Closed witness for C10: with exactly the Fedora and Alpine bundle paths
present, the Alpine path — the later of the two in the fixed list — is
selected. -/
theorem set_network_options_ca_detection_witness :
    set_network_options ⟨true, ""⟩
      (fun loc => decide (loc = "/etc/pki/tls/certs/ca-bundle.crt" ∨
        loc = "/etc/ssl/cert.pem")) "" = "/etc/ssl/cert.pem" :=
  (set_network_options_ca_detection ⟨true, ""⟩
    (fun loc => decide (loc = "/etc/pki/tls/certs/ca-bundle.crt" ∨
      loc = "/etc/ssl/cert.pem")) "" rfl rfl rfl).2
    "/etc/ssl/cert.pem" (by decide)

/-- Claim C1 fails as stated: with the duplicate-bearing configured channel
list ["a", "a"], first-seen de-duplication would give the one-channel list
["a"], but the channel set `install` actually hands to the resolver has
three elements and contains "default", a channel that never appeared in the
input — so the resolved URL list cannot list channels in the order they
first appeared in the input. -/
theorem install_channels_first_seen_cex :
    "default" ∈ install_channels_set ["a", "a"] ∧
    "default" ∉ (["a", "a"] : List String) ∧
    firstSeenDedup ["a", "a"] = ["a"] ∧
    (install_channels_set ["a", "a"]).card = 3 := by decide

/-- Claim C1 amended: `install` replaces the configured channels by an
`unordered_set` holding the distinct configured channels together with
"default" and "conda-forge"; every admissible iteration order of that set
is duplicate-free and contains exactly those channels — but the iteration
order is unspecified, so first-seen input order is not preserved — and the
resolver output built from it carries no duplicate (channel, platform)
pair. -/
theorem install_channels_dedup_amended (channels l : List String)
    (platform : String)
    (henum : IsSetEnum (install_channels_set channels) l)
    (hp : platform ≠ "noarch") :
    l.Nodup ∧
    (∀ c, c ∈ l ↔ (c ∈ channels ∨ c = "default" ∨ c = "conda-forge")) ∧
    (∀ urls, calculate_channel_urls [] platform l = .ok urls → urls.Nodup) := by
  obtain ⟨hnd, hset⟩ := henum
  refine ⟨hnd, ?_, ?_⟩
  · intro c
    have : c ∈ l ↔ c ∈ l.toFinset := (List.mem_toFinset).symm
    rw [this, hset]
    simp only [install_channels_set, Finset.mem_union, List.mem_toFinset,
      Finset.mem_insert, Finset.mem_singleton]
  · intro urls hurls
    have hne : l ≠ [] := by
      intro hnil
      subst hnil
      have : "default" ∈ ([] : List String).toFinset := by
        rw [hset]
        simp [install_channels_set]
      simp at this
    unfold calculate_channel_urls at hurls
    rw [if_neg (by simpa using hne)] at hurls
    rw [if_neg (by simpa using hne)] at hurls
    have := Except.ok.inj hurls
    subst this
    exact nodup_urlPairs _ platform (nodup_firstSeenDedupAux [] l) hp

/-- Closed witness for the amended C1 at the concrete input ["a", "a"] with
the concrete set enumeration ["default", "a", "conda-forge"]. -/
theorem install_channels_dedup_amended_witness :
    (["default", "a", "conda-forge"] : List String).Nodup ∧
    (∀ c, c ∈ (["default", "a", "conda-forge"] : List String) ↔
      (c ∈ (["a", "a"] : List String) ∨ c = "default" ∨ c = "conda-forge")) ∧
    (∀ urls, calculate_channel_urls [] "linux-64" ["default", "a", "conda-forge"] = .ok urls →
      urls.Nodup) :=
  install_channels_dedup_amended ["a", "a"] ["default", "a", "conda-forge"]
    "linux-64" (by constructor <;> decide) (by decide)

/-- Claim C2 fails as stated ("before any I/O"): on a concrete run with an
empty channel set and no default channels, the failure is indeed a
`ConfigurationError` and no fetch happens, but the creation of the
`pkgs/cache` directory — filesystem I/O — has already taken place when the
error is raised. -/
theorem install_specs_config_error_after_io_cex :
    (install_specs { ctx0 with channels := [] } env0 [] "linux-64" false).result =
      .failed .configurationError ∧
    Event.createCacheDir ∈
      (install_specs { ctx0 with channels := [] } env0 [] "linux-64" false).events := by
  decide

/-- Claim C2 amended: with an empty configured channel set and no default
channel, `install_specs` fails with `ConfigurationError` having performed
no subdirectory load, no download, no solve, no prompt and no mutation —
the only steps taken are the banner print and the creation of the
`pkgs/cache` directory, which precedes the failure. -/
theorem install_specs_empty_channels_config_error (ctx : Context) (env : Env)
    (platform : String) (create_env : Bool)
    (hch : ctx.channels = []) (hroot : ctx.root ≠ "") (htgt : ctx.target ≠ "")
    (hex : env.targetExists = true ∨ create_env = true)
    (hcache : env.cacheDirOk = true) :
    (install_specs ctx env [] platform create_env).result =
      .failed .configurationError ∧
    (install_specs ctx env [] platform create_env).events =
      [Event.banner, Event.createCacheDir] := by
  have hguard : ¬(env.targetExists = false ∧ create_env = false) := by
    rcases hex with h | h <;> simp [h]
  have hcalc : calculate_channel_urls [] platform ctx.channels =
      .error .configurationError := by
    rw [hch]
    rfl
  unfold install_specs
  rw [if_neg hroot, if_neg htgt, if_neg hguard,
    if_neg (by simp [hcache]), hcalc]
  exact ⟨rfl, rfl⟩

/-- Closed witness for the amended C2 at a concrete configuration with an
empty channel list. -/
theorem install_specs_empty_channels_config_error_witness :
    (install_specs { ctx0 with channels := [] } env0 [] "osx-64" true).result =
      .failed .configurationError ∧
    (install_specs { ctx0 with channels := [] } env0 [] "osx-64" true).events =
      [Event.banner, Event.createCacheDir] :=
  install_specs_empty_channels_config_error { ctx0 with channels := [] } env0
    "osx-64" true rfl (by decide) (by decide) (Or.inr rfl) rfl

theorem install_specs_guard_exit (ctx : Context) (env : Env)
    (defaults : List String) (platform : String) (create_env : Bool)
    (h : ctx.root = "" ∨ ctx.target = "" ∨
      (env.targetExists = false ∧ create_env = false) ∨ env.cacheDirOk = false) :
    install_specs ctx env defaults platform create_env =
      ⟨[Event.banner], .exited 1⟩ := by
  unfold install_specs
  by_cases h1 : ctx.root = ""
  · rw [if_pos h1]
  · rw [if_neg h1]
    by_cases h2 : ctx.target = ""
    · rw [if_pos h2]
    · rw [if_neg h2]
      by_cases h3 : env.targetExists = false ∧ create_env = false
      · rw [if_pos h3]
      · rw [if_neg h3]
        have h4 : env.cacheDirOk = false := by tauto
        rw [if_pos (by simp [h4])]

theorem install_specs_ok_shape (ctx : Context) (env : Env)
    (defaults : List String) (platform : String) (create_env : Bool)
    (urls : List (String × String))
    (h1 : ctx.root ≠ "") (h2 : ctx.target ≠ "")
    (h3 : ¬(env.targetExists = false ∧ create_env = false))
    (h4 : env.cacheDirOk = true)
    (hcalc : calculate_channel_urls defaults platform ctx.channels = .ok urls) :
    install_specs ctx env defaults platform create_env =
      (if ctx.always_yes then finishRun ctx (preEvents ctx urls) create_env
       else if env.promptAnswer = false then
         ⟨preEvents ctx urls ++ [Event.prompt], .exited 0⟩
       else finishRun ctx (preEvents ctx urls ++ [Event.prompt]) create_env) := by
  unfold install_specs
  rw [if_neg h1, if_neg h2, if_neg h3, if_neg (by simp [h4]), hcalc]
  by_cases hj : ctx.json <;>
    by_cases hy : ctx.always_yes <;>
      by_cases hpa : env.promptAnswer = false <;>
        simp [preEvents, hj, hy, hpa]

theorem event_cases_of_mem_preEvents (ctx : Context)
    (urls : List (String × String)) (e : Event) (he : e ∈ preEvents ctx urls) :
    e = Event.banner ∨ e = Event.createCacheDir ∨
    (∃ u, e = Event.loadSubdir u) ∨ e = Event.download ∨
    e = Event.loadInstalled ∨ e = Event.solve ∨ e = Event.logJson := by
  simp only [preEvents, List.append_assoc, List.mem_append, List.mem_cons,
    List.not_mem_nil, or_false, List.mem_map] at he
  rcases he with (rfl | rfl) | ⟨u, _, rfl⟩ | (rfl | rfl | rfl) | hj
  · exact Or.inl rfl
  · exact Or.inr (Or.inl rfl)
  · exact Or.inr (Or.inr (Or.inl ⟨_, rfl⟩))
  · exact Or.inr (Or.inr (Or.inr (Or.inl rfl)))
  · exact Or.inr (Or.inr (Or.inr (Or.inr (Or.inl rfl))))
  · exact Or.inr (Or.inr (Or.inr (Or.inr (Or.inr (Or.inl rfl)))))
  · by_cases hjj : ctx.json
    · rw [if_pos hjj] at hj
      simp only [List.mem_cons, List.not_mem_nil, or_false] at hj
      exact Or.inr (Or.inr (Or.inr (Or.inr (Or.inr (Or.inr hj)))))
    · rw [if_neg hjj] at hj
      simp at hj

theorem prompt_not_mem_preEvents (ctx : Context)
    (urls : List (String × String)) : Event.prompt ∉ preEvents ctx urls := by
  intro h
  rcases event_cases_of_mem_preEvents ctx urls Event.prompt h with
    h | h | ⟨u, h⟩ | h | h | h | h <;> simp at h

theorem createEnvDirs_not_mem_preEvents (ctx : Context)
    (urls : List (String × String)) :
    Event.createEnvDirs ∉ preEvents ctx urls := by
  intro h
  rcases event_cases_of_mem_preEvents ctx urls Event.createEnvDirs h with
    h | h | ⟨u, h⟩ | h | h | h | h <;> simp at h

theorem execute_not_mem_preEvents (ctx : Context)
    (urls : List (String × String)) (d : Bool) :
    Event.execute d ∉ preEvents ctx urls := by
  intro h
  rcases event_cases_of_mem_preEvents ctx urls (Event.execute d) h with
    h | h | ⟨u, h⟩ | h | h | h | h <;> simp at h

theorem mem_finishRun (ctx : Context) (ev : List Event) (create_env : Bool)
    (e : Event) :
    e ∈ (finishRun ctx ev create_env).events ↔
      e ∈ ev ∨ (create_env = true ∧ ctx.dry_run = false ∧ e = Event.createEnvDirs) ∨
        e = Event.execute ctx.dry_run := by
  unfold finishRun
  by_cases h : create_env = true ∧ ctx.dry_run = false
  · rw [if_pos h]
    simp only [List.append_assoc, List.mem_append, List.mem_cons,
      List.not_mem_nil, or_false]
    tauto
  · rw [if_neg h]
    simp only [List.mem_append, List.mem_cons, List.not_mem_nil, or_false]
    tauto

/-- Claim C4: whenever the confirmation prompt is actually presented and the
user declines it, `install_specs` exits with code 0, creates no environment
directories, and never executes the transaction. -/
theorem install_specs_decline_clean_exit (ctx : Context) (env : Env)
    (defaults : List String) (platform : String) (create_env : Bool)
    (hprompt : Event.prompt ∈
      (install_specs ctx env defaults platform create_env).events)
    (hno : env.promptAnswer = false) :
    (install_specs ctx env defaults platform create_env).result = .exited 0 ∧
    Event.createEnvDirs ∉
      (install_specs ctx env defaults platform create_env).events ∧
    ∀ d, Event.execute d ∉
      (install_specs ctx env defaults platform create_env).events := by
  by_cases hg : ctx.root = "" ∨ ctx.target = "" ∨
      (env.targetExists = false ∧ create_env = false) ∨ env.cacheDirOk = false
  · rw [install_specs_guard_exit ctx env defaults platform create_env hg]
      at hprompt
    simp at hprompt
  · push_neg at hg
    obtain ⟨h1, h2, h3, h4⟩ := hg
    have h3' : ¬(env.targetExists = false ∧ create_env = false) := by
      intro hand
      exact h3 hand.1 hand.2
    have h4' : env.cacheDirOk = true := by
      cases hcd : env.cacheDirOk
      · exact absurd hcd h4
      · rfl
    cases hcalc : calculate_channel_urls defaults platform ctx.channels with
    | error e =>
        have hrun : install_specs ctx env defaults platform create_env =
            ⟨[Event.banner, Event.createCacheDir], .failed e⟩ := by
          unfold install_specs
          rw [if_neg h1, if_neg h2, if_neg h3', if_neg (by simp [h4']), hcalc]
          rfl
        rw [hrun] at hprompt
        simp at hprompt
    | ok urls =>
        have hshape := install_specs_ok_shape ctx env defaults platform
          create_env urls h1 h2 h3' h4' hcalc
        by_cases hy : ctx.always_yes
        · rw [if_pos hy] at hshape
          rw [hshape] at hprompt
          rw [mem_finishRun] at hprompt
          rcases hprompt with hp | ⟨_, _, hp⟩ | hp
          · exact absurd hp (prompt_not_mem_preEvents ctx urls)
          · simp at hp
          · simp at hp
        · rw [if_neg hy, if_pos hno] at hshape
          rw [hshape]
          refine ⟨rfl, ?_, ?_⟩
          · intro hmem
            rcases List.mem_append.mp hmem with hm | hm
            · exact createEnvDirs_not_mem_preEvents ctx urls hm
            · simp at hm
          · intro d hmem
            rcases List.mem_append.mp hmem with hm | hm
            · exact execute_not_mem_preEvents ctx urls d hm
            · simp at hm

/-- Closed witness for C4 at a concrete run that reaches the prompt and is
declined. -/
theorem install_specs_decline_clean_exit_witness :
    (install_specs ctx0 ⟨true, true, false⟩ [] "linux-64" false).result =
      .exited 0 ∧
    Event.createEnvDirs ∉
      (install_specs ctx0 ⟨true, true, false⟩ [] "linux-64" false).events ∧
    ∀ d, Event.execute d ∉
      (install_specs ctx0 ⟨true, true, false⟩ [] "linux-64" false).events :=
  install_specs_decline_clean_exit ctx0 ⟨true, true, false⟩ [] "linux-64" false
    (by decide) rfl

/-- Claim C5 fails as stated ("never creates directories"): a concrete
dry-run invocation still creates the `pkgs/cache` directory under the root
prefix. -/
theorem install_specs_dry_run_creates_cache_dir_cex :
    ({ ctx0 with dry_run := true } : Context).dry_run = true ∧
    Event.createCacheDir ∈
      (install_specs { ctx0 with dry_run := true } env0 [] "linux-64" false).events := by
  decide

/-- Claim C5 amended: under dry-run, `install_specs` never creates the
target-environment directories and the transaction executor performs no
mutation (every execute step carries the dry-run flag, on which the
executor short-circuits), so the target environment is left unchanged; the
`pkgs/cache` directory under the root prefix is, however, still created. -/
theorem install_specs_dry_run_no_env_mutation (ctx : Context) (env : Env)
    (defaults : List String) (platform : String) (create_env : Bool)
    (hdry : ctx.dry_run = true) :
    ∀ e ∈ (install_specs ctx env defaults platform create_env).events,
      mutatesTargetEnv e = false := by
  intro e he
  by_cases hg : ctx.root = "" ∨ ctx.target = "" ∨
      (env.targetExists = false ∧ create_env = false) ∨ env.cacheDirOk = false
  · rw [install_specs_guard_exit ctx env defaults platform create_env hg] at he
    simp only [List.mem_cons, List.not_mem_nil, or_false] at he
    rw [he]
    rfl
  · push_neg at hg
    obtain ⟨h1, h2, h3, h4⟩ := hg
    have h3' : ¬(env.targetExists = false ∧ create_env = false) := by
      intro hand
      exact h3 hand.1 hand.2
    have h4' : env.cacheDirOk = true := by
      cases hcd : env.cacheDirOk
      · exact absurd hcd h4
      · rfl
    cases hcalc : calculate_channel_urls defaults platform ctx.channels with
    | error err =>
        have hrun : install_specs ctx env defaults platform create_env =
            ⟨[Event.banner, Event.createCacheDir], .failed err⟩ := by
          unfold install_specs
          rw [if_neg h1, if_neg h2, if_neg h3', if_neg (by simp [h4']), hcalc]
          rfl
        rw [hrun] at he
        simp only [List.mem_cons, List.not_mem_nil, or_false] at he
        rcases he with rfl | rfl <;> rfl
    | ok urls =>
        have hnomut : ∀ x, x ∈ preEvents ctx urls → mutatesTargetEnv x = false := by
          intro x hx
          rcases event_cases_of_mem_preEvents ctx urls x hx with
            rfl | rfl | ⟨u, rfl⟩ | rfl | rfl | rfl | rfl <;> rfl
        have hshape := install_specs_ok_shape ctx env defaults platform
          create_env urls h1 h2 h3' h4' hcalc
        rw [hshape] at he
        by_cases hy : ctx.always_yes
        · rw [if_pos hy] at he
          rw [mem_finishRun] at he
          rcases he with hm | ⟨_, hd, _⟩ | rfl
          · exact hnomut e hm
          · rw [hdry] at hd
            simp at hd
          · simp [mutatesTargetEnv, hdry]
        · rw [if_neg hy] at he
          by_cases hpa : env.promptAnswer = false
          · rw [if_pos hpa] at he
            rcases List.mem_append.mp he with hm | hm
            · exact hnomut e hm
            · simp only [List.mem_cons, List.not_mem_nil, or_false] at hm
              rw [hm]
              rfl
          · rw [if_neg hpa] at he
            rw [mem_finishRun] at he
            rcases he with hm | ⟨_, hd, _⟩ | rfl
            · rcases List.mem_append.mp hm with hm2 | hm2
              · exact hnomut e hm2
              · simp only [List.mem_cons, List.not_mem_nil, or_false] at hm2
                rw [hm2]
                rfl
            · rw [hdry] at hd
              simp at hd
            · simp [mutatesTargetEnv, hdry]

/-- Closed witness for the amended C5: on a concrete dry-run invocation with
environment creation requested, the execute step occurs carrying the
dry-run flag and does not mutate the target environment. -/
theorem install_specs_dry_run_no_env_mutation_witness :
    Event.execute true ∈ (install_specs { ctx0 with dry_run := true } env0 []
      "linux-64" true).events ∧
    mutatesTargetEnv (Event.execute true) = false :=
  ⟨by decide,
   install_specs_dry_run_no_env_mutation { ctx0 with dry_run := true } env0 []
     "linux-64" true rfl (Event.execute true) (by decide)⟩

/-- Claim C6: an empty root prefix, an empty target prefix, a missing target
environment without creation requested, or a failing cache-directory
creation each terminate `install_specs` with exit status 1 with only the
banner printed — before any channel-URL resolution, fetch, or solve
activity. -/
theorem install_specs_early_exit (ctx : Context) (env : Env)
    (defaults : List String) (platform : String) (create_env : Bool)
    (h : ctx.root = "" ∨ ctx.target = "" ∨
      (env.targetExists = false ∧ create_env = false) ∨ env.cacheDirOk = false) :
    (install_specs ctx env defaults platform create_env).result = .exited 1 ∧
    (install_specs ctx env defaults platform create_env).events =
      [Event.banner] := by
  rw [install_specs_guard_exit ctx env defaults platform create_env h]
  exact ⟨rfl, rfl⟩

/-- Closed witness for C6 at a concrete configuration with an empty root
prefix. -/
theorem install_specs_early_exit_witness :
    (install_specs { ctx0 with root := "" } env0 [] "linux-64" false).result =
      .exited 1 ∧
    (install_specs { ctx0 with root := "" } env0 [] "linux-64" false).events =
      [Event.banner] :=
  install_specs_early_exit { ctx0 with root := "" } env0 [] "linux-64" false
    (Or.inl rfl)

theorem remote_repos_head (k : Int) (u : String) (rest : List String) :
    ((remote_repos k (u :: rest)).map MRepo.priority).head? = some k := rfl

theorem remote_repos_chain (k : Int) (urls : List String) :
    ((remote_repos k urls).map MRepo.priority).Chain' (· > ·) := by
  induction urls generalizing k with
  | nil => simp [remote_repos]
  | cons u rest ih =>
      rw [remote_repos, List.map_cons, List.chain'_cons']
      refine ⟨?_, ih (k - 1)⟩
      intro b hb
      cases rest with
      | nil => simp [remote_repos] at hb
      | cons v vs =>
          rw [remote_repos_head] at hb
          have hb' : b = k - 1 := by
            have := hb
            simp only [Option.mem_def, Option.some.injEq] at this
            omega
          have hk : MRepo.priority ⟨some u, k, 0⟩ = k := rfl
          rw [hk, hb']
          omega

theorem remote_repos_priority_bounds (k : Int) (urls : List String) :
    ∀ r ∈ remote_repos k urls,
      k - urls.length < r.priority ∧ r.priority ≤ k := by
  induction urls generalizing k with
  | nil => simp [remote_repos]
  | cons u rest ih =>
      intro r hr
      rw [remote_repos] at hr
      rcases List.mem_cons.mp hr with rfl | hmem
      · constructor
        · have : (0 : Int) ≤ rest.length := Int.ofNat_nonneg rest.length
          simp only [List.length_cons]
          push_cast
          omega
        · exact le_refl k
      · obtain ⟨hlo, hhi⟩ := ih (k - 1) r hmem
        constructor
        · simp only [List.length_cons]
          push_cast at hlo ⊢
          omega
        · omega

/-- Claim C3: in the candidate pool of `install_specs`, the
installed-environment repository comes first with the lowest priority of
all repositories, and the remote repositories carry strictly decreasing
priorities in resolver output order, the first one equal to the number of
repository handles. -/
theorem install_specs_repo_priorities (urls : List String) (h : urls ≠ []) :
    (build_repos urls).head? = some installedRepo ∧
    installedRepo ∈ build_repos urls ∧
    (((build_repos urls).tail).map MRepo.priority).Chain' (· > ·) ∧
    (((build_repos urls).tail).map MRepo.priority).head? =
      some (urls.length : Int) ∧
    (∀ r ∈ (build_repos urls).tail, installedRepo.priority < r.priority) := by
  refine ⟨rfl, List.mem_cons_self _ _, ?_, ?_, ?_⟩
  · exact remote_repos_chain urls.length urls
  · cases urls with
    | nil => exact absurd rfl h
    | cons u rest => exact remote_repos_head _ u rest
  · intro r hr
    have hb := remote_repos_priority_bounds (urls.length : Int) urls r hr
    have : ((urls.length : Int) - urls.length) = 0 := by omega
    rw [this] at hb
    exact hb.1

/-- Closed witness for C3 with two resolver URLs. -/
theorem install_specs_repo_priorities_witness :
    (build_repos ["conda-forge/linux-64", "conda-forge/noarch"]).head? =
      some installedRepo ∧
    installedRepo ∈ build_repos ["conda-forge/linux-64", "conda-forge/noarch"] ∧
    (((build_repos ["conda-forge/linux-64", "conda-forge/noarch"]).tail).map
      MRepo.priority).Chain' (· > ·) ∧
    (((build_repos ["conda-forge/linux-64", "conda-forge/noarch"]).tail).map
      MRepo.priority).head? =
      some ((["conda-forge/linux-64", "conda-forge/noarch"] : List String).length : Int) ∧
    (∀ r ∈ (build_repos ["conda-forge/linux-64", "conda-forge/noarch"]).tail,
      installedRepo.priority < r.priority) :=
  install_specs_repo_priorities ["conda-forge/linux-64", "conda-forge/noarch"]
    (by decide)

/-- Claim C7: the solve request of `install_specs` holds exactly one job per
user-supplied spec string, in order, every job tagged `SOLVER_INSTALL`, and
the solver is constructed with the allow-downgrade flag enabled. -/
theorem install_specs_solver_jobs (specs : List String) :
    (install_specs_solver specs).jobs.map Prod.fst = specs ∧
    (install_specs_solver specs).jobs.length = specs.length ∧
    (∀ j ∈ (install_specs_solver specs).jobs,
      j.2 = JobIntent.SOLVER_INSTALL) ∧
    (SolverFlagKind.SOLVER_FLAG_ALLOW_DOWNGRADE, 1) ∈
      (install_specs_solver specs).flags := by
  refine ⟨?_, ?_, ?_, ?_⟩
  · simp [install_specs_solver, MSolver.add_jobs, Function.comp_def]
  · simp [install_specs_solver, MSolver.add_jobs]
  · intro j hj
    simp only [install_specs_solver, MSolver.add_jobs, List.nil_append,
      List.mem_map] at hj
    obtain ⟨sp, _, rfl⟩ := hj
    rfl
  · simp [install_specs_solver, MSolver.add_jobs]

/-- Claim C8: `list` reports the installed packages as a name-sorted
permutation of the formatted rows, and a row's channel column is blank
exactly when the record's channel URL starts with the designated default
public prefix, showing the resolved channel name otherwise. -/
theorem list_packages_sorted_and_channel (resolveName : String → String)
    (records : List PackageRecord) (hres : ∀ u, resolveName u ≠ "") :
    (list_packages resolveName records).Pairwise
      (fun a b => a.name ≤ b.name) ∧
    (list_packages resolveName records).Perm
      (records.map (format_one resolveName)) ∧
    (∀ p ∈ records,
      ((format_one resolveName p).channel = "" ↔
        is_default_channel p.channel = true) ∧
      (is_default_channel p.channel = false →
        (format_one resolveName p).channel = resolveName p.url)) := by
  refine ⟨?_, List.mergeSort_perm _ _, ?_⟩
  · have hs := @List.sorted_mergeSort formatted_pkg
      (fun a b => decide (a.name ≤ b.name))
      (fun a b c hab hbc => by
        simp only [decide_eq_true_eq] at hab hbc ⊢
        exact le_trans hab hbc)
      (fun a b => by
        simp only [Bool.or_eq_true, decide_eq_true_eq]
        exact le_total a.name b.name)
      (records.map (format_one resolveName))
    rw [list_packages]
    refine List.Pairwise.imp ?_ hs
    intro a b hab
    simpa using hab
  · intro p _
    constructor
    · by_cases h : is_default_channel p.channel
      · simp [format_one, h]
      · simp [format_one, h, hres p.url]
    · intro h
      simp [format_one, h]

/-- Closed witness for C8 on a two-record ledger, one record from the
designated default public channel and one from elsewhere. -/
theorem list_packages_sorted_and_channel_witness :
    (list_packages (fun _ => "conda-forge")
      [⟨"zlib", "1.2.11", "h0", "https://repo.anaconda.com/pkgs/main", "u1"⟩,
       ⟨"attrs", "19.3.0", "py_0", "https://conda.anaconda.org/conda-forge", "u2"⟩]).Pairwise
      (fun a b => a.name ≤ b.name) ∧
    (list_packages (fun _ => "conda-forge")
      [⟨"zlib", "1.2.11", "h0", "https://repo.anaconda.com/pkgs/main", "u1"⟩,
       ⟨"attrs", "19.3.0", "py_0", "https://conda.anaconda.org/conda-forge", "u2"⟩]).Perm
      ([⟨"zlib", "1.2.11", "h0", "https://repo.anaconda.com/pkgs/main", "u1"⟩,
        ⟨"attrs", "19.3.0", "py_0", "https://conda.anaconda.org/conda-forge", "u2"⟩].map
        (format_one (fun _ => "conda-forge"))) ∧
    (∀ p ∈ [(⟨"zlib", "1.2.11", "h0", "https://repo.anaconda.com/pkgs/main", "u1"⟩ : PackageRecord),
        ⟨"attrs", "19.3.0", "py_0", "https://conda.anaconda.org/conda-forge", "u2"⟩],
      ((format_one (fun _ => "conda-forge") p).channel = "" ↔
        is_default_channel p.channel = true) ∧
      (is_default_channel p.channel = false →
        (format_one (fun _ => "conda-forge") p).channel = "conda-forge")) :=
  list_packages_sorted_and_channel (fun _ => "conda-forge")
    [⟨"zlib", "1.2.11", "h0", "https://repo.anaconda.com/pkgs/main", "u1"⟩,
     ⟨"attrs", "19.3.0", "py_0", "https://conda.anaconda.org/conda-forge", "u2"⟩]
    (by
      intro u
      show "conda-forge" ≠ ""
      decide)

end Caramba
